import Mathlib

/-!
Shallow embedding of `containersvcmon.go`, a service monitor that runs a
docker container as a daemon: a supervision loop (`runLoop`) restarts the
container whenever the blocking `containersvc.Start` call returns, until a
signal handler (`stopSigHandler`) sets the shared `stopMonitoring` flag and
issues a `containersvc.Stop` request.  Strings are modelled as `List Char`;
the runtime adapter (`containersvc`) and the OS are modelled by oracle
inputs (schedules of flag reads and adapter results).
-/

namespace ContainerSvcMon

/-- Restart policy enum (`containersvc.RestartPolicyEnum`).  The source
compares the parsed value against the four constants `No`, `OnFailure`,
`UnlessStopped`, `Always`; `other` stands for any value outside them. -/
inductive RestartPolicy where
  | no
  | onFailure
  | unlessStopped
  | always
  | other (raw : List Char)
  deriving DecidableEq, Repr

/-- The check in `validateCmdLnFlag` (lines 188-191): the supplied restart
policy must equal one of the four enumerated constants. -/
def validRestartPolicy : RestartPolicy → Bool
  | .no => true
  | .onFailure => true
  | .unlessStopped => true
  | .always => true
  | .other _ => false

/-- Go `strings.LastIndex s ":"` restricted to a single character: index of
the last occurrence, `-1` when absent (the source stores it in `colSepIdx`,
line 77). -/
def lastIndex : List Char → Char → Int
  | [], _ => -1
  | x :: xs, c =>
    let r := lastIndex xs c
    if 0 ≤ r then r + 1 else if x = c then 0 else -1

/-- `port[:colSepIdx]` of `configure` (line 78): the host-side key, i.e.
everything before the last colon. -/
def hostOf (port : List Char) : List Char :=
  List.take (lastIndex port ':').toNat port

/-- `port[colSepIdx+1:]` of `configure` (line 79): the container port, i.e.
everything after the last colon. -/
def ctrOf (port : List Char) : List Char :=
  List.drop ((lastIndex port ':').toNat + 1) port

/-- Go map assignment `portMap[hostPort] = ctrPort`: insert-or-overwrite on
an association list modelling the map. -/
def mapInsert : List (List Char × List Char) → List Char → List Char →
    List (List Char × List Char)
  | [], k, v => [(k, v)]
  | (k0, v0) :: rest, k, v =>
    if k0 = k then (k0, v) :: rest else (k0, v0) :: mapInsert rest k v

/-- Go map read: first binding of the key, if any. -/
def mapLookup : List (List Char × List Char) → List Char →
    Option (List Char)
  | [], _ => none
  | (k0, v0) :: rest, k => if k0 = k then some v0 else mapLookup rest k

/-- The `for _, port := range ports` loop of `configure` (lines 74-81):
each entry is split at its last colon and written into the port map. -/
def buildPortMap (ports : List (List Char)) :
    List (List Char × List Char) :=
  ports.foldl (fun m p => mapInsert m (hostOf p) (ctrOf p)) []

/-- `containersvc.Config` as populated by `configure` (lines 85-97). -/
structure Config where
  ctrName : List Char
  portMap : List (List Char × List Char)
  volumeDriver : List Char
  volumes : List (List Char)
  background : Bool
  restartPolicy : RestartPolicy
  autoRemove : Bool
  log : Bool
  openStdin : Bool
  tty : Bool
  onlyOneContainerInstancePerImage : Bool
  deriving DecidableEq, Repr

/-- The command-line state after `flag.Parse`: positional arguments, the
result of the `os.Stat` existence check on the image path, and the flag
values.  `restartPolicySupplied` records whether the `restart-policy` flag
was set on the command line (`flag.Visit` only visits set flags). -/
structure CmdInput where
  args : List (List Char)
  imgPathExists : Bool
  ports : List (List Char)
  vols : List (List Char)
  restartPolicySupplied : Bool
  restartPolicy : RestartPolicy
  ctrName : List Char
  volDriver : List Char
  background : Bool
  autoRemove : Bool
  log : Bool
  openStdin : Bool
  tty : Bool
  oneCtr : Bool
  deriving DecidableEq, Repr

/-- `configure` (lines 68-102): builds the `containersvc.Config` from the
flag values.  Only reached after validation has passed. -/
def configure (inp : CmdInput) : Config :=
  { ctrName := inp.ctrName
    portMap := buildPortMap inp.ports
    volumeDriver := inp.volDriver
    volumes := inp.vols
    background := inp.background
    restartPolicy := inp.restartPolicy
    autoRemove := inp.autoRemove
    log := inp.log
    openStdin := inp.openStdin
    tty := inp.tty
    onlyOneContainerInstancePerImage := inp.oneCtr }

/-- Observable events of the process.  `logError u` is a `glog.Errorf` line
on stderr (`logtostderr` is set before validation runs); `u = true` records
that the format string embeds the flag usage text `fl.Usage` (lines 174,
182, 193).  `usageMsg` is the `usage()` dump to stderr (lines 263-268).
`startCall`/`startRet`/`stopCall` are the runtime-adapter operations,
`setFlag` is the write `stopMonitoring = true` (line 141), `sleepBackoff`
the fixed 2-second `time.Sleep` (line 121), `logStop` the final
"Stopping monitoring" line (line 124). -/
inductive Ev where
  | startCall
  | startRet (err : Bool)
  | stopCall (force : Bool)
  | sleepBackoff
  | logError (withFlagUsage : Bool)
  | usageMsg
  | logInfoRestart
  | logStop
  | setFlag
  deriving DecidableEq, Repr

/-- Is the event an invocation of a runtime-adapter operation? -/
def isAdapterEv : Ev → Bool
  | .startCall => true
  | .startRet _ => true
  | .stopCall _ => true
  | _ => false

/-- Does the stderr line include usage text (either the full `usage()`
message or the offending flag's `fl.Usage` string)? -/
def mentionsUsage : Ev → Bool
  | .logError u => u
  | .usageMsg => true
  | _ => false

/-- Classification of the fatal input errors, one per `os.Exit(255)` site
of the validation code. -/
inductive InputErr where
  | badArgCount
  | badImgPath
  | badPort (entry : List Char)
  | badRestartPolicy
  | badVolume (entry : List Char)
  deriving DecidableEq, Repr

/-- The stderr output each fatal path emits before `os.Exit(255)`:
`parseCmdLnArgs` (lines 247-250) and `validateCmdLnArgs` (lines 221-223)
log an error and print `usage()`; the flag checks of `validateCmdLnFlag`
(lines 174-176, 182-184, 193-195) log an error whose text embeds the
flag's usage string and exit without calling `usage()`. -/
def errEvents : InputErr → List Ev
  | .badArgCount => [Ev.logError false, Ev.usageMsg]
  | .badImgPath => [Ev.logError false, Ev.usageMsg]
  | .badPort _ => [Ev.logError true]
  | .badRestartPolicy => [Ev.logError true]
  | .badVolume _ => [Ev.logError true]

/-- First entry of an `arrayFlags` list lacking a colon, if any (the
`strings.Contains(_, ":")` scans of lines 173 and 181). -/
def findBadEntry (l : List (List Char)) : Option (List Char) :=
  l.find? (fun s => !(s.contains ':'))

/-- `validateCmdLnFlags` via `flag.Visit` (lines 202-209): `flag.Visit`
visits set flags in lexicographical order of the flag name, so the `port`
check runs before `restart-policy`, which runs before `volume`; each flag
is only visited when it was set (an unset `arrayFlags` is the empty list,
over which the scan is vacuous). -/
def validateCmdLnFlags (inp : CmdInput) : Option InputErr :=
  match findBadEntry inp.ports with
  | some p => some (.badPort p)
  | none =>
    if inp.restartPolicySupplied && !validRestartPolicy inp.restartPolicy then
      some .badRestartPolicy
    else
      match findBadEntry inp.vols with
      | some v => some (.badVolume v)
      | none => none

/-- `validateCmdLnArgs` (lines 214-225): `os.Stat` on the image path must
succeed. -/
def validateCmdLnArgs (inp : CmdInput) : Option InputErr :=
  if inp.imgPathExists then none else some .badImgPath

/-- `parseCmdLnArgs` (lines 241-259): exactly two positional arguments are
required; then `validateCmdLnArgsFlags` checks the image path first and the
set flags second. -/
def parseCmdLnArgs (inp : CmdInput) : Except InputErr (List Char × List Char) :=
  match inp.args with
  | [imgPath, img] =>
    match validateCmdLnArgs inp with
    | some e => .error e
    | none =>
      match validateCmdLnFlags inp with
      | some e => .error e
      | none => .ok (imgPath, img)
  | _ => .error .badArgCount

/-- The values the run loop observes during one iteration: the read of
`stopMonitoring` at the `for` guard (line 113), whether the blocking
`containersvc.Start` call returns an error (line 114), and the read of
`stopMonitoring` after `Start` returns (line 118).  The flag is written
concurrently by the signal handler, so each read is an oracle input. -/
structure IterEnv where
  flagAtGuard : Bool
  startErr : Bool
  flagAfterStart : Bool
  deriving DecidableEq, Repr

/-- The body of one `runLoop` iteration (lines 114-122), entered when the
guard read `false`: `Start` is invoked and returns; a non-nil error is
logged; then, unless the second flag read is `true`, the restart message is
logged and the fixed backoff sleep runs.  There is no `continue` on error:
control always falls through to the second flag check. -/
def iterEvents (e : IterEnv) : List Ev :=
  [Ev.startCall, Ev.startRet e.startErr] ++
    (if e.startErr then [Ev.logError false] else []) ++
    (if e.flagAfterStart then [] else [Ev.logInfoRestart, Ev.sleepBackoff])

/-- `runLoop`'s loop (lines 113-124), driven by a finite schedule of
iteration observations (the fuel): when the guard reads `true` the loop
exits and logs the stop message; an empty schedule means the execution is
still inside the loop. -/
def runLoopGo : List IterEnv → List Ev
  | [] => []
  | e :: rest =>
    if e.flagAtGuard then [Ev.logStop]
    else iterEvents e ++ runLoopGo rest

/-- Every flag read of the schedule returns `true`. -/
def allStopped (l : List IterEnv) : Bool :=
  l.all (fun e => e.flagAtGuard && e.flagAfterStart)

/-- Monotone visibility of the stop flag: `stopMonitoring` is only ever
written from `false` to `true` (line 141), so once any read returns `true`
every later read returns `true`. -/
def schedMono : List IterEnv → Bool
  | [] => true
  | e :: rest =>
    (!e.flagAtGuard || (e.flagAfterStart && allStopped rest)) &&
    (!e.flagAfterStart || allStopped rest) &&
    schedMono rest

/-- Stop signals the handler is registered for (line 158). -/
inductive Sig where
  | sigint
  | sigquit
  | sigterm
  deriving DecidableEq, Repr

/-- `stopSigHandler` (lines 132-146), run as a goroutine: it blocks on the
signal channel; on the first delivered signal it logs, writes
`stopMonitoring = true`, issues one non-forceful `containersvc.Stop`, logs
the stop error if any, and returns (it never loops back to the channel).
`sigs` is the sequence of delivered signals, `stopErr` whether the `Stop`
call fails.  With no signal the handler blocks forever and emits nothing. -/
def stopSigHandler (sigs : List Sig) (stopErr : Bool) : List Ev :=
  match sigs with
  | [] => []
  | _ :: _ =>
    [Ev.setFlag, Ev.stopCall false] ++
      (if stopErr then [Ev.logError false] else [])

/-- Outcome of `main` (lines 272-292): either a fatal validation exit
(carrying the stderr events and the exit status, before `regStopSigHandler`
and `runLoop` are ever reached), or the run with the built `Config` and the
loop trace. -/
inductive MainResult where
  | fatal (stderr : List Ev) (code : Nat)
  | runs (cfg : Config) (loopTrace : List Ev)
  deriving DecidableEq, Repr

/-- `main` after `flag.Parse` (lines 285-289): `parseCmdLnArgs` validates
everything and exits with status 255 on any input error; only on success
are the signal handler registered and `runLoop` (which calls `configure`)
entered. -/
def mainModel (inp : CmdInput) (sched : List IterEnv) : MainResult :=
  match parseCmdLnArgs inp with
  | .error e => .fatal (errEvents e) 255
  | .ok _ => .runs (configure inp) (runLoopGo sched)

/-! ### Properties of the last-colon split -/

/-- `lastIndex` returns `-1` or a genuine index, never another negative. -/
lemma lastIndex_neg_or_nonneg (s : List Char) (c : Char) :
    lastIndex s c = -1 ∨ 0 ≤ lastIndex s c := by
  induction s with
  | nil => left; rfl
  | cons x xs ih =>
    simp only [lastIndex]
    rcases ih with h | h
    · rw [h]
      by_cases hx : x = c
      · right; simp [hx]
      · left; simp [hx]
    · right
      rw [if_pos h]
      omega

/-- `lastIndex` is `-1` exactly when the character is absent. -/
lemma lastIndex_neg_iff (s : List Char) (c : Char) :
    lastIndex s c = -1 ↔ c ∉ s := by
  induction s with
  | nil => simp [lastIndex]
  | cons x xs ih =>
    simp only [lastIndex, List.mem_cons]
    rcases lastIndex_neg_or_nonneg xs c with h | h
    · rw [h]
      norm_num
      by_cases hx : x = c
      · simp [hx]
      · simp [hx, ih.mp h]
        exact fun hcx => hx hcx.symm
    · rw [if_pos h]
      constructor
      · intro habs; omega
      · intro hnot
        exact absurd (ih.mpr fun hm => hnot (Or.inr hm)) (by omega)

/-- When the character occurs, `lastIndex` points at its last occurrence:
the list splits as `before ++ c :: after` with `c` absent from `after`. -/
lemma lastIndex_split (s : List Char) (c : Char) (h : c ∈ s) :
    List.take (lastIndex s c).toNat s ++
        c :: List.drop ((lastIndex s c).toNat + 1) s = s ∧
      c ∉ List.drop ((lastIndex s c).toNat + 1) s := by
  induction s with
  | nil => cases h
  | cons x xs ih =>
    by_cases hmem : c ∈ xs
    · have hnn : 0 ≤ lastIndex xs c := by
        rcases lastIndex_neg_or_nonneg xs c with h0 | h0
        · exact absurd ((lastIndex_neg_iff xs c).mp h0) (by simp [hmem])
        · exact h0
      have hval : lastIndex (x :: xs) c = lastIndex xs c + 1 := by
        simp only [lastIndex]
        rw [if_pos hnn]
      have htn : (lastIndex (x :: xs) c).toNat = (lastIndex xs c).toNat + 1 := by
        rw [hval]; omega
      rw [htn]
      obtain ⟨ih1, ih2⟩ := ih hmem
      constructor
      · simpa [List.take_succ_cons, List.drop_succ_cons] using ih1
      · simpa [List.drop_succ_cons] using ih2
    · have hneg : lastIndex xs c = -1 := (lastIndex_neg_iff xs c).mpr hmem
      have hx : x = c := by
        rcases List.mem_cons.mp h with h1 | h1
        · exact h1.symm
        · exact absurd h1 hmem
      have hval : lastIndex (x :: xs) c = 0 := by
        simp only [lastIndex]
        rw [hneg]
        norm_num [hx]
      rw [hval]
      simpa [hx] using hmem

/-- C5: for every port entry holding a colon, `configure` splits it at the
last colon: the inserted key is everything before it, the value everything
after it (`hostOf p ++ ':' :: ctrOf p` reassembles the entry and the value
holds no colon, so the split colon is the last one), and the port map is
built by folding those insertions over the entries in order. -/
theorem configure_splitsPortAtLastColon (inp : CmdInput) (p : List Char)
    (hp : p ∈ inp.ports) (hc : ':' ∈ p) :
    hostOf p ++ ':' :: ctrOf p = p ∧ ':' ∉ ctrOf p ∧
      (configure inp).portMap =
        inp.ports.foldl (fun m q => mapInsert m (hostOf q) (ctrOf q)) [] := by
  obtain ⟨h1, h2⟩ := lastIndex_split p ':' hc
  exact ⟨h1, h2, rfl⟩

/-- Input with one port entry `10.0:80:90` (embedded host IP and colon). -/
def inputC5 : CmdInput :=
  { args := [['i'], ['n']]
    imgPathExists := true
    ports := [['1', '0', '.', '0', ':', '8', '0', ':', '9', '0']]
    vols := []
    restartPolicySupplied := false
    restartPolicy := .no
    ctrName := []
    volDriver := []
    background := false
    autoRemove := true
    log := true
    openStdin := true
    tty := true
    oneCtr := true }

/-- Witness for C5 at the entry `10.0:80:90`: the key is `10.0:80` and the
value `90`. -/
theorem configure_splitsPortAtLastColon_witness :
    (hostOf ['1', '0', '.', '0', ':', '8', '0', ':', '9', '0'] ++
        ':' :: ctrOf ['1', '0', '.', '0', ':', '8', '0', ':', '9', '0'] =
          ['1', '0', '.', '0', ':', '8', '0', ':', '9', '0'] ∧
      ':' ∉ ctrOf ['1', '0', '.', '0', ':', '8', '0', ':', '9', '0'] ∧
      (configure inputC5).portMap =
        inputC5.ports.foldl (fun m q => mapInsert m (hostOf q) (ctrOf q)) []) ∧
    hostOf ['1', '0', '.', '0', ':', '8', '0', ':', '9', '0'] =
        ['1', '0', '.', '0', ':', '8', '0'] ∧
    ctrOf ['1', '0', '.', '0', ':', '8', '0', ':', '9', '0'] = ['9', '0'] :=
  ⟨configure_splitsPortAtLastColon inputC5 _ (by decide) (by decide),
    by decide, by decide⟩

/-- Looking a key up after an insert: the inserted key now maps to the new
value, every other key is untouched. -/
lemma mapLookup_mapInsert (m : List (List Char × List Char))
    (k v k2 : List Char) :
    mapLookup (mapInsert m k v) k2 =
      if k = k2 then some v else mapLookup m k2 := by
  induction m with
  | nil => simp [mapInsert, mapLookup]
  | cons hd rest ih =>
    obtain ⟨k0, v0⟩ := hd
    by_cases h0 : k0 = k
    · subst h0
      simp only [mapInsert, if_pos rfl, mapLookup]
      by_cases h2 : k0 = k2 <;> simp [h2]
    · simp only [mapInsert, if_neg h0, mapLookup, ih]
      by_cases h2 : k0 = k2
      · subst h2
        have hne : ¬k = k0 := fun h => h0 h.symm
        simp [hne]
      · simp [h2]

/-- Folding the port insertions: the final binding of a key is the one of
the last entry producing it (searching the reversed entry list), earlier
bindings having been overwritten. -/
lemma mapLookup_foldl (ps : List (List Char)) (m : List (List Char × List Char))
    (k : List Char) :
    mapLookup (ps.foldl (fun m q => mapInsert m (hostOf q) (ctrOf q)) m) k =
      match ps.reverse.find? (fun q => hostOf q == k) with
      | some q => some (ctrOf q)
      | none => mapLookup m k := by
  induction ps generalizing m with
  | nil => simp
  | cons p rest ih =>
    rw [List.foldl_cons, ih, List.reverse_cons, List.find?_append]
    cases hfind : rest.reverse.find? (fun q => hostOf q == k) with
    | some q => simp [hfind, Option.orElse]
    | none =>
      simp only [hfind, Option.orElse, Option.none_orElse, List.find?]
      by_cases hk : hostOf p = k
      · simp [hk, mapLookup_mapInsert]
      · have : (hostOf p == k) = false := beq_false_of_ne hk
        simp [this, mapLookup_mapInsert, hk]

/-- C10: when several port entries share a host-side key, the built map
holds the container port of the last such entry in command-line order (the
first match in the reversed list); earlier duplicates are overwritten, and
the build never rejects an entry. -/
theorem configure_duplicatePortLastWins (inp : CmdInput) (k : List Char)
    (hports : ∀ p ∈ inp.ports, ':' ∈ p) :
    mapLookup (configure inp).portMap k =
      Option.map ctrOf (inp.ports.reverse.find? (fun q => hostOf q == k)) := by
  show mapLookup (buildPortMap inp.ports) k = _
  rw [buildPortMap, mapLookup_foldl]
  cases inp.ports.reverse.find? (fun q => hostOf q == k) <;> simp [mapLookup]

/-- Input with two port entries sharing the host-side key `a`. -/
def inputC10 : CmdInput :=
  { inputC5 with ports := [['a', ':', '1'], ['a', ':', '2']] }

/-- Witness for C10: with entries `a:1` then `a:2`, the key `a` maps to
`2`, the container port of the later entry. -/
theorem configure_duplicatePortLastWins_witness :
    mapLookup (configure inputC10).portMap ['a'] =
        Option.map ctrOf
          (inputC10.ports.reverse.find? (fun q => hostOf q == ['a'])) ∧
      mapLookup (configure inputC10).portMap ['a'] = some ['2'] :=
  ⟨configure_duplicatePortLastWins inputC10 ['a'] (by decide), by decide⟩

/-! ### Properties of the supervision loop -/

/-- If every remaining flag read returns `true`, the loop performs no
further iteration: it either has no fuel left or exits at once with the
stop message. -/
lemma runLoopGo_allStopped (l : List IterEnv) (h : allStopped l = true) :
    runLoopGo l = [] ∨ runLoopGo l = [Ev.logStop] := by
  cases l with
  | nil => left; rfl
  | cons e rest =>
    right
    have hg : e.flagAtGuard = true := by
      simp only [allStopped, List.all_cons, Bool.and_eq_true] at h
      exact h.1.1
    simp [runLoopGo, hg]

/-- Under a monotone schedule, a `true` read at the post-`Start` check of
iteration `i` forces every read of the later iterations to be `true`. -/
lemma schedMono_afterStart (sched : List IterEnv) (i : Nat) (e : IterEnv)
    (hm : schedMono sched = true) (hg : sched[i]? = some e)
    (hf : e.flagAfterStart = true) :
    allStopped (sched.drop (i + 1)) = true := by
  induction sched generalizing i with
  | nil => simp at hg
  | cons a rest ih =>
    simp only [schedMono, Bool.and_eq_true] at hm
    cases i with
    | zero =>
      simp only [List.getElem?_cons_zero, Option.some.injEq] at hg
      subst hg
      rcases Bool.or_eq_true _ _ |>.mp hm.1.2 with h | h
      · rw [hf] at h; simp at h
      · simpa using h
    | succ j =>
      simp only [List.getElem?_cons_succ] at hg
      simpa using ih j hm.2 hg

/-- C1: under a monotone schedule (the flag is never unset), an iteration
whose guard read returns `true` exits the loop at once — the whole
remaining trace is the stop-log line, with no `Start` call and no backoff
sleep — and an iteration whose post-`Start` read returns `true` performs
no backoff sleep, while the remaining trace after it holds no further
`Start` call and no sleep. -/
theorem runLoop_stopsOnceFlagVisible (sched : List IterEnv) (i : Nat)
    (e : IterEnv) (hm : schedMono sched = true) (hg : sched[i]? = some e) :
    (e.flagAtGuard = true → runLoopGo (sched.drop i) = [Ev.logStop]) ∧
    (e.flagAtGuard = false → e.flagAfterStart = true →
      Ev.sleepBackoff ∉ iterEvents e ∧
      Ev.startCall ∉ runLoopGo (sched.drop (i + 1)) ∧
      Ev.sleepBackoff ∉ runLoopGo (sched.drop (i + 1))) := by
  have hlt : i < sched.length := by
    by_contra hge
    rw [List.getElem?_eq_none (by omega)] at hg
    cases hg
  have hdrop : sched.drop i = e :: sched.drop (i + 1) := by
    rw [List.drop_eq_getElem_cons hlt]
    congr 1
    have := List.getElem?_eq_getElem hlt
    rw [hg] at this
    exact (Option.some.injEq _ _).mp this.symm
  constructor
  · intro hguard
    rw [hdrop]
    simp [runLoopGo, hguard]
  · intro hguard hafter
    have hall : allStopped (sched.drop (i + 1)) = true :=
      schedMono_afterStart sched i e hm hg hafter
    have hrest := runLoopGo_allStopped _ hall
    refine ⟨?_, ?_, ?_⟩
    · cases herr : e.startErr <;>
        simp [iterEvents, hafter, herr]
    · rcases hrest with h | h <;> simp [h]
    · rcases hrest with h | h <;> simp [h]

/-- Witness for C1 on the schedule where the flag becomes visible at the
post-`Start` read of the first iteration: that iteration does not sleep,
and the rest of the trace holds no further `Start` call. -/
theorem runLoop_stopsOnceFlagVisible_witness :
    ((⟨false, false, true⟩ : IterEnv).flagAtGuard = true →
      runLoopGo (List.drop 0
        [⟨false, false, true⟩, (⟨true, true, true⟩ : IterEnv)]) =
          [Ev.logStop]) ∧
    ((⟨false, false, true⟩ : IterEnv).flagAtGuard = false →
      (⟨false, false, true⟩ : IterEnv).flagAfterStart = true →
      Ev.sleepBackoff ∉ iterEvents ⟨false, false, true⟩ ∧
      Ev.startCall ∉ runLoopGo (List.drop 1
        [⟨false, false, true⟩, (⟨true, true, true⟩ : IterEnv)]) ∧
      Ev.sleepBackoff ∉ runLoopGo (List.drop 1
        [⟨false, false, true⟩, (⟨true, true, true⟩ : IterEnv)])) :=
  runLoop_stopsOnceFlagVisible
    [⟨false, false, true⟩, ⟨true, true, true⟩] 0 ⟨false, false, true⟩
    (by decide) (by decide)

/-- A schedule on which the stop flag is never observed set: the adapter
returns (with the given error statuses) and the loop always restarts. -/
def unstoppedSched (errs : List Bool) : List IterEnv :=
  errs.map (fun b => ⟨false, b, false⟩)

/-- On an unstopped schedule the loop starts the container once per
schedule entry and never reaches the loop exit. -/
lemma runLoopGo_unstopped (errs : List Bool) :
    (runLoopGo (unstoppedSched errs)).count Ev.startCall = errs.length ∧
      Ev.logStop ∉ runLoopGo (unstoppedSched errs) := by
  induction errs with
  | nil => exact ⟨rfl, by simp [unstoppedSched, runLoopGo]⟩
  | cons b rest ih =>
    have hstep : runLoopGo (unstoppedSched (b :: rest)) =
        iterEvents ⟨false, b, false⟩ ++ runLoopGo (unstoppedSched rest) := by
      simp [unstoppedSched, runLoopGo]
    constructor
    · rw [hstep, List.count_append, ih.1]
      cases b <;> simp [iterEvents] <;> omega
    · rw [hstep]
      intro hmem
      rcases List.mem_append.mp hmem with h | h
      · cases b <;> simp [iterEvents] at h
      · exact ih.2 h

/-- C3: if the stop flag is never observed set, a schedule of `N + 1`
adapter returns yields `N + 1` invocations of `Start` — after each of the
first `N` returns the loop reattempts, with no retry limit — and the loop
never exits. -/
theorem runLoop_startsNPlusOne (N : Nat) (errs : List Bool)
    (h : errs.length = N + 1) :
    (runLoopGo (unstoppedSched errs)).count Ev.startCall = N + 1 ∧
      Ev.logStop ∉ runLoopGo (unstoppedSched errs) := by
  obtain ⟨h1, h2⟩ := runLoopGo_unstopped errs
  exact ⟨h ▸ h1, h2⟩

/-- Witness for C3 with `N = 2`: three successful returns, three `Start`
invocations, no loop exit. -/
theorem runLoop_startsNPlusOne_witness :
    (runLoopGo (unstoppedSched [false, false, false])).count Ev.startCall =
        2 + 1 ∧
      Ev.logStop ∉ runLoopGo (unstoppedSched [false, false, false]) :=
  runLoop_startsNPlusOne 2 [false, false, false] (by decide)

/-- Counterexample to C4 as stated: in the iteration observing
`⟨guard := false, startErr := true, flagAfterStart := false⟩` the `Start`
call returns an error, the error is reported — and the fixed backoff sleep
is nevertheless performed, because the loop body has no `continue`: after
the error log, control falls through to the stop check and the sleep. -/
theorem runLoop_errorStillSleeps_cex :
    Ev.startRet true ∈ runLoopGo [⟨false, true, false⟩] ∧
      Ev.logError false ∈ runLoopGo [⟨false, true, false⟩] ∧
      Ev.sleepBackoff ∈ runLoopGo [⟨false, true, false⟩] := by decide

/-- C4 amended: an iteration whose `Start` call errors reports the error
and then proceeds exactly like a successful iteration — the backoff sleep
is performed after every return from `Start`, erroneous or not, whenever
the stop flag is not observed set at the post-`Start` check. -/
theorem runLoop_errorReportedThenBackoff (e : IterEnv)
    (hguard : e.flagAtGuard = false) :
    (Ev.logError false ∈ iterEvents e ↔ e.startErr = true) ∧
      (Ev.sleepBackoff ∈ iterEvents e ↔ e.flagAfterStart = false) ∧
      runLoopGo [e] = iterEvents e := by
  obtain ⟨g, s, f⟩ := e
  simp only at hguard
  subst hguard
  cases s <;> cases f <;> refine ⟨by decide, by decide, by simp [runLoopGo]⟩

/-- Witness for the amended C4 at the erroring iteration
`⟨false, true, false⟩`. -/
theorem runLoop_errorReportedThenBackoff_witness :
    (Ev.logError false ∈ iterEvents ⟨false, true, false⟩ ↔
        (⟨false, true, false⟩ : IterEnv).startErr = true) ∧
      (Ev.sleepBackoff ∈ iterEvents ⟨false, true, false⟩ ↔
        (⟨false, true, false⟩ : IterEnv).flagAfterStart = false) ∧
      runLoopGo [⟨false, true, false⟩] = iterEvents ⟨false, true, false⟩ :=
  runLoop_errorReportedThenBackoff ⟨false, true, false⟩ rfl

/-! ### Properties of the signal handler -/

/-- Is the event a `containersvc.Stop` request (of either force mode)? -/
def isStopCall : Ev → Bool
  | .stopCall _ => true
  | _ => false

/-- C2: on any non-empty sequence of delivered termination signals the
handler first writes the stop flag and then issues the stop request with
`force = false`; over the whole handler trace the flag is written exactly
once and exactly one stop request is issued, and no forceful stop request
ever occurs — however many signals arrive. -/
theorem stopSigHandler_setsFlagThenStopsOnce (sigs : List Sig)
    (stopErr : Bool) (h : sigs ≠ []) :
    (∃ rest, stopSigHandler sigs stopErr =
        Ev.setFlag :: Ev.stopCall false :: rest) ∧
      (stopSigHandler sigs stopErr).count Ev.setFlag = 1 ∧
      (stopSigHandler sigs stopErr).countP isStopCall = 1 ∧
      Ev.stopCall true ∉ stopSigHandler sigs stopErr := by
  cases sigs with
  | nil => exact absurd rfl h
  | cons s rest =>
    cases stopErr <;>
      exact ⟨⟨_, rfl⟩, by simp [stopSigHandler],
        by simp [stopSigHandler, isStopCall], by simp [stopSigHandler]⟩

/-- Witness for C2 with two delivered signals (SIGTERM then SIGINT): still
one flag write and one non-forceful stop request. -/
theorem stopSigHandler_setsFlagThenStopsOnce_witness :
    (∃ rest, stopSigHandler [Sig.sigterm, Sig.sigint] false =
        Ev.setFlag :: Ev.stopCall false :: rest) ∧
      (stopSigHandler [Sig.sigterm, Sig.sigint] false).count Ev.setFlag = 1 ∧
      (stopSigHandler [Sig.sigterm, Sig.sigint] false).countP isStopCall
          = 1 ∧
      Ev.stopCall true ∉ stopSigHandler [Sig.sigterm, Sig.sigint] false :=
  stopSigHandler_setsFlagThenStopsOnce [Sig.sigterm, Sig.sigint] false
    (by decide)

/-! ### Properties of command-line validation -/

/-- With the `restart-policy` flag set to a value outside the four
enumerated constants, flag validation cannot succeed. -/
lemma validateCmdLnFlags_rejectsInvalidPolicy (inp : CmdInput)
    (hsup : inp.restartPolicySupplied = true)
    (hbad : validRestartPolicy inp.restartPolicy = false) :
    validateCmdLnFlags inp ≠ none := by
  unfold validateCmdLnFlags
  cases hfb : findBadEntry inp.ports with
  | some p => simp
  | none => simp [hsup, hbad]

/-- If `parseCmdLnArgs` succeeds, flag validation passed. -/
lemma parseCmdLnArgs_ok_flags (inp : CmdInput) (v : List Char × List Char)
    (h : parseCmdLnArgs inp = .ok v) : validateCmdLnFlags inp = none := by
  unfold parseCmdLnArgs at h
  cases hargs : inp.args with
  | nil => rw [hargs] at h; cases h
  | cons a tl =>
    cases tl with
    | nil => rw [hargs] at h; cases h
    | cons b tl2 =>
      cases tl2 with
      | cons c tl3 => rw [hargs] at h; cases h
      | nil =>
        rw [hargs] at h
        cases hva : validateCmdLnArgs inp with
        | some e => rw [hva] at h; cases h
        | none =>
          rw [hva] at h
          cases hvf : validateCmdLnFlags inp with
          | some e => rw [hvf] at h; cases h
          | none => rfl

/-- C6: whenever the `restart-policy` flag is supplied with a value outside
the four enumerated literals, the process exits fatally with status 255,
and the run never reaches `runLoop` — so no `Config` record is ever
constructed. -/
theorem invalidRestartPolicy_exits255 (inp : CmdInput)
    (sched : List IterEnv)
    (hsup : inp.restartPolicySupplied = true)
    (hbad : validRestartPolicy inp.restartPolicy = false) :
    (∃ stderr, mainModel inp sched = .fatal stderr 255) ∧
      ∀ cfg tr, mainModel inp sched ≠ .runs cfg tr := by
  cases hparse : parseCmdLnArgs inp with
  | error e =>
    refine ⟨⟨errEvents e, ?_⟩, ?_⟩
    · simp [mainModel, hparse]
    · intro cfg tr
      simp [mainModel, hparse]
  | ok v =>
    exact absurd (parseCmdLnArgs_ok_flags inp v hparse)
      (validateCmdLnFlags_rejectsInvalidPolicy inp hsup hbad)

/-- Input supplying the restart policy value `x`, outside the enumeration. -/
def inputC6 : CmdInput :=
  { inputC5 with
    ports := []
    restartPolicySupplied := true
    restartPolicy := .other ['x'] }

/-- Witness for C6: with restart policy `x` the process exits fatally with
status 255 and no `Config` is built. -/
theorem invalidRestartPolicy_exits255_witness :
    (∃ stderr, mainModel inputC6 [] = .fatal stderr 255) ∧
      ∀ cfg tr, mainModel inputC6 [] ≠ .runs cfg tr :=
  invalidRestartPolicy_exits255 inputC6 [] (by decide) (by decide)

/-- C7: every input error — malformed port, volume or restart-policy flag
value, wrong positional-argument count, or nonexistent image path — makes
the process exit at once with status 255; the stderr output includes a
usage message (the full `usage()` dump for argument errors, the offending
flag's usage string for flag errors) and contains no adapter operation and
no retry: the result is the fatal exit, never a run. -/
theorem inputError_usageAndExit255 (inp : CmdInput) (sched : List IterEnv)
    (e : InputErr) (h : parseCmdLnArgs inp = .error e) :
    mainModel inp sched = .fatal (errEvents e) 255 ∧
      (∃ ev ∈ errEvents e, mentionsUsage ev = true) ∧
      (∀ ev ∈ errEvents e, isAdapterEv ev = false) ∧
      ∀ cfg tr, mainModel inp sched ≠ .runs cfg tr := by
  refine ⟨by simp [mainModel, h], ?_, ?_, ?_⟩
  · cases e <;> simp [errEvents, mentionsUsage]
  · cases e <;> simp [errEvents, isAdapterEv]
  · intro cfg tr
    simp [mainModel, h]

/-- Input whose single port entry `80` lacks a colon. -/
def inputC7 : CmdInput :=
  { inputC5 with ports := [['8', '0']] }

/-- Witness for C7 at the malformed port entry `80`: fatal exit 255, the
stderr line embeds the flag's usage text, no adapter events. -/
theorem inputError_usageAndExit255_witness :
    mainModel inputC7 [] = .fatal (errEvents (.badPort ['8', '0'])) 255 ∧
      (∃ ev ∈ errEvents (InputErr.badPort ['8', '0']),
        mentionsUsage ev = true) ∧
      (∀ ev ∈ errEvents (InputErr.badPort ['8', '0']),
        isAdapterEv ev = false) ∧
      ∀ cfg tr, mainModel inputC7 [] ≠ .runs cfg tr :=
  inputError_usageAndExit255 inputC7 [] (.badPort ['8', '0']) (by rfl)

/-- C8: with a positional-argument count other than two, the process exits
with status 255, `usage()` is printed to stderr, and — the fatal exit
happening inside `parseCmdLnArgs`, before `regStopSigHandler` and
`runLoop` — no adapter operation (`Start` or `Stop`) is ever invoked. -/
theorem wrongArgCount_exits255NoAdapter (inp : CmdInput)
    (sched : List IterEnv) (h : inp.args.length ≠ 2) :
    mainModel inp sched = .fatal (errEvents .badArgCount) 255 ∧
      Ev.usageMsg ∈ errEvents InputErr.badArgCount ∧
      (∀ ev ∈ errEvents InputErr.badArgCount, isAdapterEv ev = false) ∧
      ∀ cfg tr, mainModel inp sched ≠ .runs cfg tr := by
  have hparse : parseCmdLnArgs inp = .error .badArgCount := by
    unfold parseCmdLnArgs
    cases hargs : inp.args with
    | nil => rfl
    | cons a tl =>
      cases tl with
      | nil => rfl
      | cons b tl2 =>
        cases tl2 with
        | nil => exact absurd (by rw [hargs]; rfl) h
        | cons c tl3 => rfl
  refine ⟨by simp [mainModel, hparse], by simp [errEvents],
    by simp [errEvents, isAdapterEv], ?_⟩
  intro cfg tr
  simp [mainModel, hparse]

/-- Input invoked with a single positional argument. -/
def inputC8 : CmdInput :=
  { inputC5 with args := [['i']] }

/-- Witness for C8 with one positional argument: fatal exit 255 with
`usage()` on stderr and no adapter call. -/
theorem wrongArgCount_exits255NoAdapter_witness :
    mainModel inputC8 [] = .fatal (errEvents .badArgCount) 255 ∧
      Ev.usageMsg ∈ errEvents InputErr.badArgCount ∧
      (∀ ev ∈ errEvents InputErr.badArgCount, isAdapterEv ev = false) ∧
      ∀ cfg tr, mainModel inputC8 [] ≠ .runs cfg tr :=
  wrongArgCount_exits255NoAdapter inputC8 [] (by decide)

end ContainerSvcMon
